import Mathlib

/-!
Shallow embedding of `src/apo/scripts/evaluator.py` (the APO evaluator),
which scores a free-text audit report against a JSON answer key.

Python strings become Lean `String`s; `dict` lookups become total functions
returning `Option`/default values; the JSON/file I/O of `evaluate` is factored
out by passing the already-decoded answer key as a structure (the claims are
about the scoring logic, not about JSON decoding).  Python's float arithmetic
in the final normalisation is modelled over `ℚ`, with `round(x, 1)` embedded
as exact banker's rounding (round half to even) of `x * 10`, which is what
CPython's `round` computes on the exactly-representable values at stake.
-/

namespace Evaluator

/-! ### String primitives

The Python `str` operations the evaluator uses (`upper`, `lower`, `strip`,
`replace`, `split`, `startswith`, `in`) are embedded as executable functions
on the underlying character lists, so that every concrete run of the
evaluator can be checked by kernel evaluation.  Case mapping is ASCII (the
evaluator's verdict tokens, concept lists and table fixtures are ASCII). -/

/-- Python `str.upper` on one ASCII character. -/
def pyUpperChar (c : Char) : Char :=
  if 'a' ≤ c ∧ c ≤ 'z' then Char.ofNat (c.toNat - 32) else c

/-- Python `str.lower` on one ASCII character. -/
def pyLowerChar (c : Char) : Char :=
  if 'A' ≤ c ∧ c ≤ 'Z' then Char.ofNat (c.toNat + 32) else c

/-- Python `str.upper` (ASCII). -/
def pyUpper (s : String) : String :=
  ⟨s.data.map pyUpperChar⟩

/-- Python `str.lower` (ASCII). -/
def pyLower (s : String) : String :=
  ⟨s.data.map pyLowerChar⟩

/-- The whitespace characters Python `str.strip` removes (ASCII range). -/
def isPyWhitespace (c : Char) : Bool :=
  c = ' ' || c = '\t' || c = '\n' || c = '\r' || c = '\x0b' || c = '\x0c'

/-- Python `str.strip()`: drop leading and trailing whitespace. -/
def pyStrip (s : String) : String :=
  ⟨((s.data.dropWhile isPyWhitespace).reverse.dropWhile isPyWhitespace).reverse⟩

/-- `leadsWith needle hay`: `hay` begins with `needle`. -/
def leadsWith : List Char → List Char → Bool
  | [], _ => true
  | _ :: _, [] => false
  | a :: as, b :: bs => a = b && leadsWith as bs

/-- Python `str.startswith`. -/
def pyStartsWith (s pre : String) : Bool :=
  leadsWith pre.data s.data

/-- Occurrence of `needle` anywhere in `hay` (Python `needle in hay`):
true at the empty needle. -/
def listContains (hay needle : List Char) : Bool :=
  match hay with
  | [] => needle.isEmpty
  | _ :: t => leadsWith needle hay || listContains t needle

/-- Embedding of the Python substring test `needle in hay`. -/
def strContains (hay needle : String) : Bool :=
  listContains hay.data needle.data

/-- Fuel-indexed worker for `replaceChars`.  Each step consumes at least one
character of `s` and one unit of fuel, so with fuel `s.length` the fuel never
runs out before the input does. -/
def replaceCharsAux (pat rep : List Char) : Nat → List Char → List Char
  | 0, s => s
  | fuel + 1, s =>
      match s with
      | [] => []
      | c :: t =>
          if leadsWith pat (c :: t) && !pat.isEmpty then
            rep ++ replaceCharsAux pat rep fuel ((c :: t).drop pat.length)
          else
            c :: replaceCharsAux pat rep fuel t

/-- Python `str.replace` (all non-overlapping occurrences, left to right) on
character lists.  The evaluator only replaces non-empty patterns; an empty
pattern is mapped to the identity here. -/
def replaceChars (pat rep s : List Char) : List Char :=
  replaceCharsAux pat rep s.length s

/-- Python `str.replace`. -/
def pyReplace (s pat rep : String) : String :=
  ⟨replaceChars pat.data rep.data s.data⟩

/-- Python `str.split(sep)` for a one-character separator, on character
lists: `split` of the empty string is `[""]`. -/
def splitOnChar (sep : Char) : List Char → List (List Char)
  | [] => [[]]
  | c :: t =>
      if c = sep then [] :: splitOnChar sep t
      else
        match splitOnChar sep t with
        | [] => [[c]]
        | h :: r => (c :: h) :: r

/-- Python `str.split(sep)` for a one-character separator. -/
def pySplit (s : String) (sep : Char) : List String :=
  (splitOnChar sep s.data).map (fun l => ⟨l⟩)

/-- `VERDICT_GROUPS` (lines 20-26): verdict categories for near-miss scoring.
`none` models a key that is absent from the Python dict, so that
`VERDICT_GROUPS.get(a)` is `VERDICT_GROUPS a` and Python's `None == None`
is `Option` equality at `none`. -/
def VERDICT_GROUPS (v : String) : Option String :=
  match v with
  | "KEEP" => some "keep"
  | "REMOVE" => some "remove"
  | "TRIM" => some "trim"
  | "MOVE_NESTED" => some "move"
  | "MOVE_HOOK" => some "move"
  | _ => none

/-- `KEY_CONCEPTS` (lines 29-52): key concepts per case that should appear in
reasoning.  The Python double lookup `KEY_CONCEPTS.get(case_id, {}).get(name, [])`
becomes a total function defaulting to `[]`. -/
def KEY_CONCEPTS (case_id section_name : String) : List String :=
  match case_id, section_name with
  | "case-01-bloated-generic", "Code Style" =>
      ["baked-in", "model already knows", "built-in"]
  | "case-01-bloated-generic", "Security" =>
      ["OWASP", "baked-in", "model already knows"]
  | "case-01-bloated-generic", "My Project Structure" =>
      ["discoverable", "filesystem", "read"]
  | "case-01-bloated-generic", "Python Preferences" =>
      ["nested", "only relevant when", "Python files"]
  | "case-02-mixed-quality", "Never Modify Legacy API" =>
      ["hook", "PCI", "compliance", "block"]
  | "case-02-mixed-quality", "Secrets Management" =>
      ["team-specific", "AWS", "access pattern"]
  | "case-02-mixed-quality", "Testing" =>
      ["discoverable", "package.json", "generic"]
  | "case-03-already-lean", "Forbidden Actions" =>
      ["hook", "guaranteed", "enforcement"]
  | "case-04-subtle-traps", "Data Model Conventions" =>
      ["HIPAA", "retention", "compliance"]
  | "case-04-subtle-traps", "Code Quality" =>
      ["generic", "discoverable", "config"]
  | "case-05-hook-candidates", "Absolute Rules" =>
      ["hook", "PreToolUse", "guaranteed"]
  | "case-05-hook-candidates", "DO NOT TOUCH" =>
      ["hook", "block", "Edit", "Write"]
  | _, _ => []

/-- `normalize_verdict` (lines 55-67): uppercase, strip, spaces to
underscores, arrow glyphs removed, then the fixed alias table. -/
def normalize_verdict (raw : String) : String :=
  let v := pyReplace (pyReplace (pyReplace (pyStrip (pyUpper raw)) " " "_") "→" "") "->" ""
  match v with
  | "MOVE" => "MOVE_NESTED"
  | "MOVE_TO_NESTED" => "MOVE_NESTED"
  | "MOVE_TO_HOOK" => "MOVE_HOOK"
  | "HOOK" => "MOVE_HOOK"
  | "DELETE" => "REMOVE"
  | "DROP" => "REMOVE"
  | _ => v

/-- `score_verdict` (lines 70-78): 2 = exact, 1 = near-miss, 0 = wrong.
The near-miss test is Python's `VERDICT_GROUPS.get(a) == VERDICT_GROUPS.get(e)`,
i.e. equality of the two `Option` lookups (both-absent compares equal). -/
def score_verdict (actual expected : String) : Nat :=
  let a := normalize_verdict actual
  let e := normalize_verdict expected
  if a = e then 2
  else if VERDICT_GROUPS a = VERDICT_GROUPS e then 1
  else 0

/-- `score_reasoning` (lines 81-87): bonus point if the reasoning mentions any
key concept (case-insensitive substring). -/
def score_reasoning (reason case_id section_name : String) : Nat :=
  let concepts := KEY_CONCEPTS case_id section_name
  if concepts = [] then 0
  else if concepts.any (fun c => strContains (pyLower reason) (pyLower c)) then 1
  else 0

/-- A parsed table row (the `section` dict built on lines 110-114).  The three
fields always exist, mirroring the dict always carrying the three keys. -/
structure ParsedSection where
  name : String
  verdict : String
  reason : String
deriving DecidableEq, Repr

/-- The cell list of one line (line 101):
`[c.strip() for c in line.strip().split("|")[1:-1]]`. -/
def cellsOf (raw : String) : List String :=
  (((pySplit (pyStrip raw) '|').drop 1).dropLast).map pyStrip

/-- The first skip condition of line 105:
`cells[0] in ("Section", "---", "") or cells[0].startswith("-")`. -/
def isSkipFirst (c0 : String) : Bool :=
  c0 = "Section" || c0 = "---" || c0 = "" || pyStartsWith c0 "-"

/-- One cell of the separator test of line 107: `c.startswith("-") or c == ""`. -/
def isSepCell (c : String) : Bool :=
  pyStartsWith c "-" || c = ""

/-- The body of the per-line loop of `parse_audit_output` (lines 97-115):
`none` when the line is dropped by a `continue`, `some` when a section dict
is appended. -/
def parseLine (raw : String) : Option ParsedSection :=
  if pyStartsWith (pyStrip raw) "|" then
    match cellsOf raw with
    | c0 :: c1 :: c2 :: rest =>
        if isSkipFirst c0 then none
        else if (c0 :: c1 :: c2 :: rest).all isSepCell then none
        else some ⟨c0, c2, rest.headD ""⟩
    | _ => none
  else none

/-- `parse_audit_output` (lines 90-116): split the text on newlines and keep
the rows that survive the filters, in order. -/
def parse_audit_output (text : String) : List ParsedSection :=
  (pySplit text '\n').filterMap parseLine

/-- One record of the answer key's `sections` array. -/
structure KeySection where
  name : String
  verdict : String
deriving DecidableEq, Repr

/-- The decoded answer-key JSON (`case_id`, `sections`). -/
structure AnswerKey where
  case_id : String
  sections : List KeySection
deriving DecidableEq, Repr

/-- The last section record with a given name (the value a Python dict
comprehension keeps for a repeated key). -/
def lastWithName (ss : List KeySection) (n : String) : KeySection :=
  ((ss.filter (fun s => s.name = n)).getLastD ⟨n, ""⟩)

/-- `expected = {s["name"]: s for s in answer["sections"]}` (line 123) as an
ordered association list: distinct names in first-occurrence order, each
mapped to the last record carrying that name (Python dict semantics:
re-inserting a key keeps its position but overwrites its value). -/
def expectedList (ss : List KeySection) : List KeySection :=
  ((ss.map KeySection.name).eraseDups).map (lastWithName ss)

/-- The bidirectional fuzzy match of line 133:
`exp_name.lower() in a["name"].lower() or a["name"].lower() in exp_name.lower()`. -/
def sectionMatches (expName : String) (a : ParsedSection) : Bool :=
  strContains (pyLower a.name) (pyLower expName)
    || strContains (pyLower expName) (pyLower a.name)

/-- The matching loop of lines 131-135: first parsed row that fuzzy-matches,
scanning parsed rows in order. -/
def findMatch (actual : List ParsedSection) (expName : String) : Option ParsedSection :=
  actual.find? (sectionMatches expName)

/-- One entry of the `results` list (lines 138-156). -/
structure SectionResult where
  sectionName : String
  expected : String
  actual : String
  verdict_score : Nat
  reasoning_score : Nat
deriving DecidableEq, Repr

/-- The body of the per-section loop of `evaluate` (lines 129-156). -/
def evalSection (case_id : String) (actual : List ParsedSection)
    (exp : KeySection) : SectionResult :=
  match findMatch actual exp.name with
  | none => ⟨exp.name, exp.verdict, "MISSING", 0, 0⟩
  | some m =>
      ⟨exp.name, exp.verdict, normalize_verdict m.verdict,
       score_verdict m.verdict exp.verdict,
       score_reasoning m.reason case_id exp.name⟩

/-- CPython's `round` on an exact value: round half to even. -/
def roundHalfEven (q : ℚ) : ℤ :=
  if q - ⌊q⌋ < 1/2 then ⌊q⌋
  else if 1/2 < q - ⌊q⌋ then ⌊q⌋ + 1
  else if ⌊q⌋ % 2 = 0 then ⌊q⌋ else ⌊q⌋ + 1

/-- `round(x, 1)` of line 159: banker's rounding to one decimal place. -/
def round1 (q : ℚ) : ℚ :=
  ((roundHalfEven (q * 10) : ℤ) : ℚ) / 10

/-- The report returned by `evaluate` (lines 161-167).  `score` is `ℚ`
(Python: a float, or the int `0` when there are no expected sections). -/
structure Report where
  case_id : String
  score : ℚ
  total_points : Nat
  max_points : Nat
  sections : List SectionResult
deriving DecidableEq, Repr

/-- `evaluate` (lines 119-167), with the answer key passed already decoded
(the JSON/file read of line 121 is I/O, outside this embedding). -/
def evaluate (audit_output : String) (answer : AnswerKey) : Report :=
  let expected := expectedList answer.sections
  let actual := parse_audit_output audit_output
  let results := expected.map (evalSection answer.case_id actual)
  let total_possible := expected.length * 3
  let total_score : Nat :=
    (results.map (fun r => r.verdict_score + r.reasoning_score)).sum
  let normalized : ℚ :=
    if total_possible > 0
    then round1 (((total_score : ℚ) / (total_possible : ℚ)) * 100)
    else 0
  ⟨answer.case_id, normalized, total_score, total_possible, results⟩

/-! ### Projection lemmas for `evaluate` -/

theorem evaluate_sections_eq (a : String) (k : AnswerKey) :
    (evaluate a k).sections =
      (expectedList k.sections).map (evalSection k.case_id (parse_audit_output a)) := rfl

theorem evaluate_max_eq (a : String) (k : AnswerKey) :
    (evaluate a k).max_points = (expectedList k.sections).length * 3 := rfl

theorem evaluate_total_eq (a : String) (k : AnswerKey) :
    (evaluate a k).total_points =
      (((expectedList k.sections).map (evalSection k.case_id (parse_audit_output a))).map
        (fun r => r.verdict_score + r.reasoning_score)).sum := rfl

theorem evaluate_score_eq (a : String) (k : AnswerKey) :
    (evaluate a k).score =
      if (evaluate a k).max_points > 0
      then round1 (((evaluate a k).total_points : ℚ) / ((evaluate a k).max_points : ℚ) * 100)
      else 0 := rfl

/-! ### Per-section score bounds -/

theorem score_verdict_le_two (a e : String) : score_verdict a e ≤ 2 := by
  simp only [score_verdict]
  split_ifs <;> omega

theorem score_reasoning_le_one (r c n : String) : score_reasoning r c n ≤ 1 := by
  simp only [score_reasoning]
  split_ifs <;> omega

theorem evalSection_pair_le (c : String) (l : List ParsedSection) (e : KeySection) :
    (evalSection c l e).verdict_score + (evalSection c l e).reasoning_score ≤ 3 := by
  unfold evalSection
  cases hm : findMatch l e.name with
  | none => simp
  | some m =>
      simp only
      have h1 := score_verdict_le_two m.verdict e.verdict
      have h2 := score_reasoning_le_one m.reason c e.name
      omega

theorem evaluate_total_le_max (a : String) (k : AnswerKey) :
    (evaluate a k).total_points ≤ (evaluate a k).max_points := by
  rw [evaluate_total_eq, evaluate_max_eq]
  have hb : ∀ x ∈ (((expectedList k.sections).map
      (evalSection k.case_id (parse_audit_output a))).map
      (fun r => r.verdict_score + r.reasoning_score)), x ≤ 3 := by
    intro x hx
    obtain ⟨r, hr, hxe⟩ := List.mem_map.mp hx
    obtain ⟨e2, he2, hre⟩ := List.mem_map.mp hr
    subst hre
    subst hxe
    exact evalSection_pair_le _ _ _
  have h := List.sum_le_card_nsmul _ 3 hb
  simpa [smul_eq_mul] using h

/-! ### Rounding bounds -/

theorem roundHalfEven_nonneg {q : ℚ} (h : 0 ≤ q) : 0 ≤ roundHalfEven q := by
  unfold roundHalfEven
  have hf : (0 : ℤ) ≤ ⌊q⌋ := Int.floor_nonneg.mpr h
  split_ifs <;> omega

theorem roundHalfEven_le {q : ℚ} {B : ℤ} (h : q ≤ (B : ℚ)) : roundHalfEven q ≤ B := by
  unfold roundHalfEven
  have hf : ⌊q⌋ ≤ B := by
    have h2 := Int.floor_le_floor h
    rwa [Int.floor_intCast] at h2
  have hfq : ((⌊q⌋ : ℤ) : ℚ) ≤ q := Int.floor_le q
  split_ifs with h1 h2 h3
  · exact hf
  · have hlt : ((⌊q⌋ : ℤ) : ℚ) < (B : ℚ) - 1/2 := by
      have : (1 : ℚ)/2 < q - ⌊q⌋ := h2
      linarith
    have : (⌊q⌋ : ℤ) < B := by
      have := hlt.trans_le (by linarith : (B : ℚ) - 1/2 ≤ (B : ℚ))
      exact_mod_cast this
    omega
  · exact hf
  · have heq : q - ⌊q⌋ = 1/2 := le_antisymm (not_lt.mp h2) (not_lt.mp h1)
    have hlt : ((⌊q⌋ : ℤ) : ℚ) < (B : ℚ) := by linarith
    have : (⌊q⌋ : ℤ) < B := by exact_mod_cast hlt
    omega

theorem roundHalfEven_intCast (z : ℤ) : roundHalfEven (z : ℚ) = z := by
  unfold roundHalfEven
  rw [Int.floor_intCast]
  norm_num

theorem round1_intCast (z : ℤ) : round1 (z : ℚ) = (z : ℚ) := by
  unfold round1
  have h : ((z : ℚ)) * 10 = ((z * 10 : ℤ) : ℚ) := by push_cast; ring
  rw [h, roundHalfEven_intCast]
  push_cast
  field_simp

theorem round1_bounds {x : ℚ} (h0 : 0 ≤ x) (h1 : x ≤ 100) :
    0 ≤ round1 x ∧ round1 x ≤ 100 ∧ ∃ z : ℤ, round1 x * 10 = (z : ℚ) := by
  have h0t : (0 : ℚ) ≤ x * 10 := by linarith
  have h1t : x * 10 ≤ ((1000 : ℤ) : ℚ) := by push_cast; linarith
  have hr0 := roundHalfEven_nonneg h0t
  have hr1 := roundHalfEven_le h1t
  unfold round1
  refine ⟨?_, ?_, ⟨roundHalfEven (x * 10), ?_⟩⟩
  · apply div_nonneg _ (by norm_num : (0:ℚ) ≤ 10)
    exact_mod_cast hr0
  · rw [div_le_iff₀ (by norm_num : (0:ℚ) < 10)]
    have : ((roundHalfEven (x * 10) : ℤ) : ℚ) ≤ ((1000 : ℤ) : ℚ) := by exact_mod_cast hr1
    push_cast at this ⊢
    linarith
  · field_simp

/-! ### Parser lemmas -/

/-- A line accepted by `parseLine` has a non-empty first cell (the skip test of
line 105 includes the empty string), and its `reason` is the empty string when
the row has exactly three cells. -/
theorem parseLine_some_spec (raw : String) (s : ParsedSection)
    (h : parseLine raw = some s) :
    s.name ≠ "" ∧ ((cellsOf raw).length = 3 → s.reason = "") := by
  unfold parseLine at h
  split at h
  · split at h
    next c0 c1 c2 rest heq =>
      split at h
      · exact absurd h (by simp)
      next hskip =>
        split at h
        · exact absurd h (by simp)
        next hall =>
          have hs : s = ⟨c0, c2, rest.headD ""⟩ := by
            injection h with h2
            exact h2.symm
          subst hs
          simp only [isSkipFirst, Bool.or_eq_true, decide_eq_true_eq, not_or] at hskip
          refine ⟨hskip.1.2, ?_⟩
          intro hlen
          rw [heq] at hlen
          simp only [List.length_cons] at hlen
          have : rest = [] := List.eq_nil_of_length_eq_zero (by omega)
          simp [this]
    next heq => exact absurd h (by simp)
  · exact absurd h (by simp)

/-! ### Claim theorems -/

/-- Claim C1 — the claim is FALSE of the code: for the pair `"FOO"`/`"BAR"`,
whose normalized forms differ and are both absent from `VERDICT_GROUPS`,
`score_verdict` returns 1, not 0.  Python's `VERDICT_GROUPS.get(a) ==
VERDICT_GROUPS.get(e)` compares `None` with `None` and succeeds, so any two
distinct unmapped tokens count as a near-miss of each other, contradicting
the documented rubric (near-miss = same verdict category). -/
theorem score_verdict_unmapped_near_miss :
    normalize_verdict "FOO" ≠ normalize_verdict "BAR" ∧
    VERDICT_GROUPS (normalize_verdict "FOO") = none ∧
    VERDICT_GROUPS (normalize_verdict "BAR") = none ∧
    score_verdict "FOO" "BAR" = 1 := by decide

/-- Claim C2, counterexample — a row whose first cell starts with a dash but
is not dash-only (`"-Security"`), with data in the other cells, is NOT kept:
`parse_audit_output` discards it, because line 105 also skips any row whose
first cell merely starts with a dash. -/
theorem parse_drops_dash_named_row :
    cellsOf "| -Security | 1-5 | KEEP | good |" = ["-Security", "1-5", "KEEP", "good"] ∧
    parse_audit_output "| -Security | 1-5 | KEEP | good |" = [] := by decide

/-- Claim C2, amended — a pipe-delimited row with at least 3 cells is skipped
exactly when its first cell is literally `"Section"`, `"---"`, or empty, or
starts with a dash character, or every cell is empty or starts with a dash. -/
theorem parseLine_skip_iff (raw c0 c1 c2 : String) (rest : List String)
    (hpipe : pyStartsWith (pyStrip raw) "|" = true)
    (hcells : cellsOf raw = c0 :: c1 :: c2 :: rest) :
    parseLine raw = none ↔
      (isSkipFirst c0 = true ∨ (c0 :: c1 :: c2 :: rest).all isSepCell = true) := by
  unfold parseLine
  rw [hpipe, hcells]
  simp only [if_true]
  cases hsf : isSkipFirst c0 with
  | true => simp [hsf]
  | false =>
      cases hall : (c0 :: c1 :: c2 :: rest).all isSepCell with
      | true => simp [hall]
      | false => simp [hall]

/-- Witness for `parseLine_skip_iff` at a concrete kept row. -/
theorem parseLine_skip_iff_witness :
    parseLine "| A | 1 | KEEP |" = none ↔
      (isSkipFirst "A" = true ∨ (["A", "1", "KEEP"]).all isSepCell = true) :=
  parseLine_skip_iff "| A | 1 | KEEP |" "A" "1" "KEEP" [] (by decide) (by decide)

/-- Claim C3, counterexample — for an answer key whose `sections` sequence has
two entries with the same name, `max_points` is 3, not 3 × 2: the dict
comprehension of line 123 collapses duplicate names. -/
theorem max_points_duplicate_names :
    (evaluate "" ⟨"c", [⟨"A", "KEEP"⟩, ⟨"A", "TRIM"⟩]⟩).max_points = 3 ∧
    ([(⟨"A", "KEEP"⟩ : KeySection), ⟨"A", "TRIM"⟩] : List KeySection).length = 2 := by
  decide

/-- Claim C3, amended — `max_points` equals 3 times the number of DISTINCT
section names in the answer key's `sections` sequence. -/
theorem max_points_eq_distinct (a : String) (k : AnswerKey) :
    (evaluate a k).max_points = 3 * ((k.sections.map KeySection.name).eraseDups).length := by
  rw [evaluate_max_eq]
  unfold expectedList
  rw [List.length_map, Nat.mul_comm]

/-- Claim C4 — on answer key `case-02-mixed-quality` with the single section
`{name: "Testing", verdict: "TRIM"}` and an audit containing the row
`| Testing Strategy | ... | TRIM | discoverable via package.json |`, the row
is matched by bidirectional substring, verdict scores 2, reasoning scores 1
(concept `"package.json"`), and the report is 3/3 points, score 100. -/
theorem evaluate_case02_testing :
    findMatch (parse_audit_output
        "| Testing Strategy | ... | TRIM | discoverable via package.json |") "Testing" =
      some ⟨"Testing Strategy", "TRIM", "discoverable via package.json"⟩ ∧
    (evaluate "| Testing Strategy | ... | TRIM | discoverable via package.json |"
        ⟨"case-02-mixed-quality", [⟨"Testing", "TRIM"⟩]⟩).sections =
      [⟨"Testing", "TRIM", "TRIM", 2, 1⟩] ∧
    (evaluate "| Testing Strategy | ... | TRIM | discoverable via package.json |"
        ⟨"case-02-mixed-quality", [⟨"Testing", "TRIM"⟩]⟩).total_points = 3 ∧
    (evaluate "| Testing Strategy | ... | TRIM | discoverable via package.json |"
        ⟨"case-02-mixed-quality", [⟨"Testing", "TRIM"⟩]⟩).max_points = 3 ∧
    (evaluate "| Testing Strategy | ... | TRIM | discoverable via package.json |"
        ⟨"case-02-mixed-quality", [⟨"Testing", "TRIM"⟩]⟩).score = 100 := by
  refine ⟨by decide, by decide, by decide, by decide, ?_⟩
  have ht : (evaluate "| Testing Strategy | ... | TRIM | discoverable via package.json |"
      ⟨"case-02-mixed-quality", [⟨"Testing", "TRIM"⟩]⟩).total_points = 3 := by decide
  have hm : (evaluate "| Testing Strategy | ... | TRIM | discoverable via package.json |"
      ⟨"case-02-mixed-quality", [⟨"Testing", "TRIM"⟩]⟩).max_points = 3 := by decide
  rw [evaluate_score_eq, ht, hm]
  rw [if_pos (by norm_num : (3:ℕ) > 0)]
  have hx : ((3:ℕ) : ℚ) / ((3:ℕ) : ℚ) * 100 = ((100 : ℤ) : ℚ) := by norm_num
  rw [hx, round1_intCast]
  norm_num

/-- Claim C5 — for every audit text and answer key, the score is within
[0, 100], is an integer multiple of 1/10 (one decimal place), and
`total_points` never exceeds `max_points`. -/
theorem evaluate_score_in_range (a : String) (k : AnswerKey) :
    0 ≤ (evaluate a k).score ∧ (evaluate a k).score ≤ 100 ∧
    (evaluate a k).total_points ≤ (evaluate a k).max_points ∧
    ∃ z : ℤ, (evaluate a k).score * 10 = (z : ℚ) := by
  have htm := evaluate_total_le_max a k
  rw [evaluate_score_eq]
  by_cases hm : (evaluate a k).max_points > 0
  · rw [if_pos hm]
    have hmp : (0 : ℚ) < ((evaluate a k).max_points : ℚ) := by exact_mod_cast hm
    have htq : ((evaluate a k).total_points : ℚ) ≤ ((evaluate a k).max_points : ℚ) := by
      exact_mod_cast htm
    have hx0 : (0 : ℚ) ≤
        ((evaluate a k).total_points : ℚ) / ((evaluate a k).max_points : ℚ) * 100 := by
      have := div_nonneg (by positivity : (0:ℚ) ≤ ((evaluate a k).total_points : ℚ)) hmp.le
      linarith
    have hx1 : ((evaluate a k).total_points : ℚ) / ((evaluate a k).max_points : ℚ) * 100
        ≤ 100 := by
      have hdiv : ((evaluate a k).total_points : ℚ) / ((evaluate a k).max_points : ℚ) ≤ 1 :=
        div_le_one_of_le₀ htq hmp.le
      linarith
    obtain ⟨g0, g1, gz⟩ := round1_bounds hx0 hx1
    exact ⟨g0, g1, htm, gz⟩
  · rw [if_neg hm]
    exact ⟨le_refl 0, by norm_num, htm, ⟨0, by norm_num⟩⟩

/-- Claim C6 — with zero expected sections, `evaluate` returns score 0,
`total_points` 0 and `max_points` 0, through the explicit guard of line 159
(no division is attempted). -/
theorem evaluate_no_sections (audit cid : String) :
    (evaluate audit ⟨cid, []⟩).score = 0 ∧
    (evaluate audit ⟨cid, []⟩).total_points = 0 ∧
    (evaluate audit ⟨cid, []⟩).max_points = 0 :=
  ⟨rfl, rfl, rfl⟩

/-- Claim C7 — an expected section with no fuzzy-matching parsed row yields
the record `{section, expected, actual := "MISSING", 0, 0}` inside the
results, and the results still contain one record per expected section
(scoring continues past the miss; the embedding is a total function, so no
exception is involved). -/
theorem evaluate_missing_section (a : String) (k : AnswerKey) (e : KeySection)
    (he : e ∈ expectedList k.sections)
    (hm : findMatch (parse_audit_output a) e.name = none) :
    (⟨e.name, e.verdict, "MISSING", 0, 0⟩ : SectionResult) ∈ (evaluate a k).sections ∧
    (evaluate a k).sections.length = (expectedList k.sections).length := by
  rw [evaluate_sections_eq]
  constructor
  · have hval : evalSection k.case_id (parse_audit_output a) e =
        ⟨e.name, e.verdict, "MISSING", 0, 0⟩ := by
      unfold evalSection
      rw [hm]
    have hmem := List.mem_map_of_mem (evalSection k.case_id (parse_audit_output a)) he
    rwa [hval] at hmem
  · exact List.length_map _ _

/-- Witness for `evaluate_missing_section` on an empty audit text. -/
theorem evaluate_missing_section_witness :
    (⟨"A", "KEEP", "MISSING", 0, 0⟩ : SectionResult) ∈
      (evaluate "" ⟨"c", [⟨"A", "KEEP"⟩]⟩).sections ∧
    (evaluate "" ⟨"c", [⟨"A", "KEEP"⟩]⟩).sections.length =
      (expectedList [⟨"A", "KEEP"⟩]).length :=
  evaluate_missing_section "" ⟨"c", [⟨"A", "KEEP"⟩]⟩ ⟨"A", "KEEP"⟩ (by decide) (by decide)

/-- Claim C8 — `normalize_verdict` is a no-op on each canonical verdict token
(`KEEP`, `REMOVE`, `TRIM`, `MOVE_NESTED`, `MOVE_HOOK`), hence idempotent on
its own outputs for these tokens. -/
theorem normalize_verdict_canonical_noop :
    normalize_verdict "KEEP" = "KEEP" ∧
    normalize_verdict "REMOVE" = "REMOVE" ∧
    normalize_verdict "TRIM" = "TRIM" ∧
    normalize_verdict "MOVE_NESTED" = "MOVE_NESTED" ∧
    normalize_verdict "MOVE_HOOK" = "MOVE_HOOK" ∧
    normalize_verdict (normalize_verdict "KEEP") = normalize_verdict "KEEP" ∧
    normalize_verdict (normalize_verdict "REMOVE") = normalize_verdict "REMOVE" ∧
    normalize_verdict (normalize_verdict "TRIM") = normalize_verdict "TRIM" ∧
    normalize_verdict (normalize_verdict "MOVE_NESTED") = normalize_verdict "MOVE_NESTED" ∧
    normalize_verdict (normalize_verdict "MOVE_HOOK") = normalize_verdict "MOVE_HOOK" := by
  decide

/-- Claim C9 — every section produced by `parse_audit_output` has a non-empty
name (rows with an empty first cell are skipped by line 105); each comes from
some input line whose parsed cell row, when it has exactly 3 cells, forces
`reason = ""` (the three fields `name`, `verdict`, `reason` are always
present by construction of `ParsedSection`). -/
theorem parse_audit_output_invariant (text : String) (s : ParsedSection)
    (hs : s ∈ parse_audit_output text) :
    s.name ≠ "" ∧ ∃ raw, raw ∈ pySplit text '\n' ∧ parseLine raw = some s ∧
      ((cellsOf raw).length = 3 → s.reason = "") := by
  obtain ⟨raw, hraw, hp⟩ := List.mem_filterMap.mp hs
  obtain ⟨h1, h2⟩ := parseLine_some_spec raw s hp
  exact ⟨h1, raw, hraw, hp, h2⟩

/-- Witness for `parse_audit_output_invariant` on a concrete 3-cell row. -/
theorem parse_audit_output_invariant_witness :
    (⟨"A", "KEEP", ""⟩ : ParsedSection).name ≠ "" ∧
    ∃ raw, raw ∈ pySplit "| A | 1 | KEEP |" '\n' ∧
      parseLine raw = some ⟨"A", "KEEP", ""⟩ ∧
      ((cellsOf raw).length = 3 → (⟨"A", "KEEP", ""⟩ : ParsedSection).reason = "") :=
  parse_audit_output_invariant "| A | 1 | KEEP |" ⟨"A", "KEEP", ""⟩ (by decide)

/-- Claim C10 — fuzzy matching does not consume parsed rows: with one parsed
row `Testing Strategy` and two expected sections `Testing` and
`Testing Strategy`, both sections select the same single row (neither is
`MISSING`) and each is scored against that row's verdict `KEEP`. -/
theorem evaluate_row_not_consumed :
    parse_audit_output "| Testing Strategy | 1 | KEEP | ok |" =
      [⟨"Testing Strategy", "KEEP", "ok"⟩] ∧
    findMatch [⟨"Testing Strategy", "KEEP", "ok"⟩] "Testing" =
      some ⟨"Testing Strategy", "KEEP", "ok"⟩ ∧
    findMatch [⟨"Testing Strategy", "KEEP", "ok"⟩] "Testing Strategy" =
      some ⟨"Testing Strategy", "KEEP", "ok"⟩ ∧
    (evaluate "| Testing Strategy | 1 | KEEP | ok |"
        ⟨"case-x", [⟨"Testing", "KEEP"⟩, ⟨"Testing Strategy", "TRIM"⟩]⟩).sections =
      [⟨"Testing", "KEEP", "KEEP", 2, 0⟩, ⟨"Testing Strategy", "TRIM", "KEEP", 0, 0⟩] := by
  decide

end Evaluator
